import Mathlib

/-!
Verification of the adaptive review-scheduling and mastery-tracking engine of the
TOEIC Master platform, against its natural-language specification.

Sources embedded here:
- `src/backend/src/models/User.js`: `User.prototype.updateStreak` and
  `User.prototype.calculateAccuracy` (the only algorithmic code present in the sources).
- `src/database/schema.sql`: the columns governing the scheduler state
  (`user_vocabulary`, `user_progress`, `test_sessions`, `users`).

The four core components (ReviewScheduler, MasteryTracker, SessionScorer,
ProgressAggregator) are specified in the document but their implementations are not in
the repository sources; where a claim depends on them, the operation is modelled from
the spec, as marked in each doc comment.

Dates are modelled at day granularity as integers (day numbers), matching the
JavaScript code, which truncates both timestamps to midnight before taking
`Math.floor((today - lastLogin) / msPerDay)`. Real-valued quantities (`ease_factor`,
accuracies) are modelled as rationals; `round` is Mathlib's round-half-up, which
agrees with JavaScript `Math.round` on nonnegative inputs.
-/

namespace ToeicCore

/-- Grading outcome of a vocabulary review (`user_vocabulary.last_review_result`). -/
inductive Outcome
  | Again
  | Hard
  | Good
  | Easy
deriving DecidableEq

/-- Spaced-repetition status of a vocabulary card (`user_vocabulary.status`). -/
inductive CardStatus
  | Learning
  | Reviewing
  | Mastered
deriving DecidableEq

/-- One learner×vocabulary review card, from the `user_vocabulary` columns:
`status`, `interval_days`, `ease_factor`, `review_count`, `next_review_date`,
`last_review_result`. -/
structure ReviewCard where
  status : CardStatus
  intervalDays : ℤ
  easeFactor : ℚ
  reviewCount : ℕ
  nextReviewDate : ℤ
  lastResult : Option Outcome
deriving DecidableEq

/-- Modelled from the spec: `ReviewScheduler.grade` (§4.2). The scheduler itself is
absent from the repository sources; only its state columns exist (`user_vocabulary`).
SM-2 variant: `Again` resets the interval to 1 and lowers ease by 0.2; `Hard`
multiplies the interval by 1.2 and lowers ease by 0.15; `Good` multiplies by the ease
factor; `Easy` multiplies by ease×1.3 and raises ease by 0.15. Ease is floored at
1.3; first-ever grading treats the stored interval as 1; `reviewCount` increments and
`nextReviewDate = today + newInterval` on every outcome. -/
def grade (today : ℤ) (card : ReviewCard) (o : Outcome) : ReviewCard :=
  let base : ℚ := if card.reviewCount = 0 then 1 else (card.intervalDays : ℚ)
  match o with
  | .Again =>
      { status := .Learning
        intervalDays := 1
        easeFactor := max (13/10) (card.easeFactor - 2/10)
        reviewCount := card.reviewCount + 1
        nextReviewDate := today + 1
        lastResult := some .Again }
  | .Hard =>
      let i : ℤ := max 1 (round (base * (12/10)))
      { status := if card.status = .Learning then .Reviewing else card.status
        intervalDays := i
        easeFactor := max (13/10) (card.easeFactor - 3/20)
        reviewCount := card.reviewCount + 1
        nextReviewDate := today + i
        lastResult := some .Hard }
  | .Good =>
      let i : ℤ := round (base * card.easeFactor)
      { status := if 21 ≤ i ∧ 5 ≤ card.reviewCount then .Mastered else .Reviewing
        intervalDays := i
        easeFactor := card.easeFactor
        reviewCount := card.reviewCount + 1
        nextReviewDate := today + i
        lastResult := some .Good }
  | .Easy =>
      let i : ℤ := round (base * card.easeFactor * (13/10))
      { status := if 21 ≤ i ∧ 5 ≤ card.reviewCount then .Mastered else .Reviewing
        intervalDays := i
        easeFactor := card.easeFactor + 3/20
        reviewCount := card.reviewCount + 1
        nextReviewDate := today + i
        lastResult := some .Easy }

/-- One learner×question mastery record, from the `user_progress` columns
`mastery_level` (0–5), `review_count`, `next_review_date`. -/
structure MasteryRecord where
  masteryLevel : ℤ
  reviewCount : ℕ
  nextReviewDate : Option ℤ
deriving DecidableEq

/-- Modelled from the spec: the fixed mastery-level→due-days lookup of §4.3,
`{0:1, 1:2, 2:4, 3:7, 4:14, 5:30}`. -/
def masteryDueDays (level : ℤ) : ℤ :=
  if level ≤ 0 then 1
  else if level = 1 then 2
  else if level = 2 then 4
  else if level = 3 then 7
  else if level = 4 then 14
  else 30

/-- Modelled from the spec: `MasteryTracker.record` (§4.3). The tracker itself is
absent from the repository sources; only its state columns exist (`user_progress`).
Correct: `masteryLevel = min 5 (masteryLevel + 1)`; incorrect:
`masteryLevel = max 0 (masteryLevel - 2)`; `reviewCount` increments and the due date
is derived from the new level via `masteryDueDays`. -/
def record (today : ℤ) (m : MasteryRecord) (isCorrect : Bool) : MasteryRecord :=
  let l : ℤ :=
    if isCorrect then min 5 (m.masteryLevel + 1) else max 0 (m.masteryLevel - 2)
  { masteryLevel := l
    reviewCount := m.reviewCount + 1
    nextReviewDate := some (today + masteryDueDays l) }

/-- Fold a finite sequence of correct/incorrect attempts through `record`. -/
def recordAll (today : ℤ) (m : MasteryRecord) (bs : List Bool) : MasteryRecord :=
  bs.foldl (record today) m

/-- One answer of a practice-test session: which TOEIC part it belongs to and whether
it was answered correctly (`user_progress.is_correct`, `questions.part`). -/
structure Answer where
  sectionId : ℕ
  isCorrect : Bool
deriving DecidableEq

/-- Number of answers attempted in section `s`. -/
def attemptedIn (answers : List Answer) (s : ℕ) : ℕ :=
  (answers.filter (fun a => decide (a.sectionId = s))).length

/-- Number of correct answers in section `s`. -/
def correctIn (answers : List Answer) (s : ℕ) : ℕ :=
  (answers.filter (fun a => decide (a.sectionId = s ∧ a.isCorrect = true))).length

/-- Per-section accuracy, `correct / attempted` as a rational. -/
def accuracy (answers : List Answer) (s : ℕ) : ℚ :=
  (correctIn answers s : ℚ) / (attemptedIn answers s : ℚ)

/-- Section identifiers present in the input, first occurrence order, deduplicated. -/
def sectionsOf (answers : List Answer) : List ℕ :=
  (answers.map Answer.sectionId).dedup

/-- Modelled from the spec: sections classified weak, accuracy < 0.6 (§4.4). -/
def weakIds (answers : List Answer) : List ℕ :=
  (sectionsOf answers).filter (fun s => decide (accuracy answers s < 3/5))

/-- Modelled from the spec: sections classified strong, accuracy ≥ 0.85 (§4.4). -/
def strongIds (answers : List Answer) : List ℕ :=
  (sectionsOf answers).filter (fun s => decide (17/20 ≤ accuracy answers s))

/-- Modelled from the spec: the neutral classification of §4.4 — present sections that
are neither weak nor strong (0.6 ≤ accuracy < 0.85). -/
def neutralIds (answers : List Answer) : List ℕ :=
  (sectionsOf answers).filter
    (fun s => decide (3/5 ≤ accuracy answers s ∧ accuracy answers s < 17/20))

/-- Ordering of weak sections: accuracy ascending, ties by section id ascending. -/
def weakOrder (answers : List Answer) (a b : ℕ) : Prop :=
  accuracy answers a < accuracy answers b ∨
    (accuracy answers a = accuracy answers b ∧ a ≤ b)

/-- Ordering of strong sections: accuracy descending, ties by section id ascending. -/
def strongOrder (answers : List Answer) (a b : ℕ) : Prop :=
  accuracy answers b < accuracy answers a ∨
    (accuracy answers a = accuracy answers b ∧ a ≤ b)

instance (answers : List Answer) : DecidableRel (weakOrder answers) := fun a b =>
  inferInstanceAs (Decidable (accuracy answers a < accuracy answers b ∨
    (accuracy answers a = accuracy answers b ∧ a ≤ b)))

instance (answers : List Answer) : DecidableRel (strongOrder answers) := fun a b =>
  inferInstanceAs (Decidable (accuracy answers b < accuracy answers a ∨
    (accuracy answers a = accuracy answers b ∧ a ≤ b)))

instance (answers : List Answer) : IsTotal ℕ (weakOrder answers) where
  total a b := by
    rcases lt_trichotomy (accuracy answers a) (accuracy answers b) with h | h | h
    · exact Or.inl (Or.inl h)
    · rcases le_total a b with hab | hab
      · exact Or.inl (Or.inr ⟨h, hab⟩)
      · exact Or.inr (Or.inr ⟨h.symm, hab⟩)
    · exact Or.inr (Or.inl h)

instance (answers : List Answer) : IsTrans ℕ (weakOrder answers) where
  trans a b c hab hbc := by
    rcases hab with h1 | ⟨h1, h1'⟩ <;> rcases hbc with h2 | ⟨h2, h2'⟩
    · exact Or.inl (h1.trans h2)
    · exact Or.inl (lt_of_lt_of_eq h1 h2)
    · exact Or.inl (lt_of_eq_of_lt h1 h2)
    · exact Or.inr ⟨h1.trans h2, le_trans h1' h2'⟩

instance (answers : List Answer) : IsTotal ℕ (strongOrder answers) where
  total a b := by
    rcases lt_trichotomy (accuracy answers a) (accuracy answers b) with h | h | h
    · exact Or.inr (Or.inl h)
    · rcases le_total a b with hab | hab
      · exact Or.inl (Or.inr ⟨h, hab⟩)
      · exact Or.inr (Or.inr ⟨h.symm, hab⟩)
    · exact Or.inl (Or.inl h)

instance (answers : List Answer) : IsTrans ℕ (strongOrder answers) where
  trans a b c hab hbc := by
    rcases hab with h1 | ⟨h1, h1'⟩ <;> rcases hbc with h2 | ⟨h2, h2'⟩
    · exact Or.inl (h2.trans h1)
    · exact Or.inl (lt_of_eq_of_lt h2.symm h1)
    · exact Or.inl (lt_of_lt_of_eq h2 h1.symm)
    · exact Or.inr ⟨h1.trans h2, le_trans h1' h2'⟩

/-- Outcome of scoring one completed practice-test session
(`test_sessions.weak_parts`, `test_sessions.strong_parts`). -/
structure SessionOutcome where
  perSectionScore : List (ℕ × ℕ × ℕ)
  weakSections : List ℕ
  strongSections : List ℕ
deriving DecidableEq

/-- Modelled from the spec: `SessionScorer.score` (§4.4). The scorer itself is absent
from the repository sources; only its output columns exist (`test_sessions`). Groups
answers by section, computes accuracies, classifies with the default thresholds
(weak < 0.6, strong ≥ 0.85), and orders weak sections by accuracy ascending and
strong sections by accuracy descending, ties by section id ascending. -/
def score (answers : List Answer) : SessionOutcome :=
  { perSectionScore :=
      (sectionsOf answers).map (fun s => (s, correctIn answers s, attemptedIn answers s))
    weakSections := List.insertionSort (weakOrder answers) (weakIds answers)
    strongSections := List.insertionSort (strongOrder answers) (strongIds answers) }

/-- Learner-level aggregate state, from the `users` columns `streak_days`,
`last_login_at`, `total_questions_answered`, `correct_answers_count`. -/
structure UserStats where
  streak_days : ℕ
  last_login_at : Option ℤ
  total_questions_answered : ℕ
  correct_answers_count : ℕ
deriving DecidableEq

/-- `User.prototype.updateStreak` (src/backend/src/models/User.js, lines 365–387),
at day granularity: `diffDays = today - last`; `diffDays = 1` increments the streak,
`diffDays > 1` resets it to 1, `diffDays = 0` keeps it, and a missing
`last_login_at` starts it at 1; `last_login_at` is always set to today. -/
def updateStreak (today : ℤ) (u : UserStats) : UserStats :=
  match u.last_login_at with
  | some last =>
      let diffDays : ℤ := today - last
      if diffDays = 1 then
        { u with streak_days := u.streak_days + 1, last_login_at := some today }
      else if 1 < diffDays then
        { u with streak_days := 1, last_login_at := some today }
      else
        { u with last_login_at := some today }
  | none =>
      { u with streak_days := 1, last_login_at := some today }

/-- `User.prototype.calculateAccuracy` (src/backend/src/models/User.js, lines
360–363): 0 when nothing was answered, otherwise
`Math.round((correct / total) * 100)`. -/
def calculateAccuracy (u : UserStats) : ℤ :=
  if u.total_questions_answered = 0 then 0
  else
    round (((u.correct_answers_count : ℚ) / (u.total_questions_answered : ℚ)) * 100)

/-- Modelled from the spec: `ProgressAggregator.apply` for an attempt event (§4.5).
The aggregator itself is absent from the repository sources; the counter updates
(`totalAnswered += 1`, `totalCorrect += isCorrect ? 1 : 0`) follow §4.5, and the
streak update is `User.prototype.updateStreak` from the sources. -/
def applyAttempt (today : ℤ) (isCorrect : Bool) (u : UserStats) : UserStats :=
  updateStreak today
    { u with
      total_questions_answered := u.total_questions_answered + 1
      correct_answers_count :=
        u.correct_answers_count + (if isCorrect then 1 else 0) }

/-! ### Helper lemmas -/

lemma updateStreak_last_login (today : ℤ) (u : UserStats) :
    (updateStreak today u).last_login_at = some today := by
  obtain ⟨sd, last?, tq, ca⟩ := u
  cases last? with
  | none => rfl
  | some last =>
      simp only [updateStreak]
      split_ifs <;> rfl

lemma updateStreak_streak (today : ℤ) (u : UserStats) :
    (updateStreak today u).streak_days =
      match u.last_login_at with
      | none => 1
      | some last =>
          if today - last = 1 then u.streak_days + 1
          else if 1 < today - last then 1
          else u.streak_days := by
  obtain ⟨sd, last?, tq, ca⟩ := u
  cases last? with
  | none => rfl
  | some last =>
      simp only [updateStreak]
      split_ifs <;> rfl

lemma updateStreak_total (today : ℤ) (u : UserStats) :
    (updateStreak today u).total_questions_answered = u.total_questions_answered := by
  obtain ⟨sd, last?, tq, ca⟩ := u
  cases last? with
  | none => rfl
  | some last =>
      simp only [updateStreak]
      split_ifs <;> rfl

lemma updateStreak_streak_le (today : ℤ) (u : UserStats) :
    (updateStreak today u).streak_days ≤ u.streak_days + 1 := by
  rw [updateStreak_streak]
  obtain ⟨sd, last?, tq, ca⟩ := u
  cases last? with
  | none => exact Nat.le_add_left 1 sd
  | some last =>
      dsimp only
      split_ifs <;> omega

/-! ### Claims -/

/-- C1. `User.prototype.updateStreak`: if the stored last-activity date is exactly one
day before today the streak increments; if more than one day before it resets to 1;
if equal to today it is unchanged; if absent it becomes 1; and in every case the
last-activity date is set to today, including on the same-day branch. -/
theorem updateStreak_spec (today : ℤ) (u : UserStats) :
    (updateStreak today u).last_login_at = some today ∧
    (u.last_login_at = none → (updateStreak today u).streak_days = 1) ∧
    ∀ last, u.last_login_at = some last →
      (today - last = 1 → (updateStreak today u).streak_days = u.streak_days + 1) ∧
      (1 < today - last → (updateStreak today u).streak_days = 1) ∧
      (today - last = 0 → (updateStreak today u).streak_days = u.streak_days) := by
  refine ⟨updateStreak_last_login today u, ?_, ?_⟩
  · intro hnone
    rw [updateStreak_streak, hnone]
  · intro last hlast
    rw [updateStreak_streak, hlast]
    refine ⟨fun h1 => ?_, fun h2 => ?_, fun h0 => ?_⟩
    · simp only [if_pos h1]
    · simp only [if_neg (show ¬today - last = 1 by omega), if_pos h2]
    · simp only [if_neg (show ¬today - last = 1 by omega),
        if_neg (show ¬1 < today - last by omega)]

/-- Witness for C1: concrete instances of each branch, with every hypothesis
discharged at an explicit input. -/
theorem updateStreak_spec_witness :
    (updateStreak 10 ⟨3, some 9, 20, 11⟩).last_login_at = some 10 ∧
    (updateStreak 10 ⟨3, some 9, 20, 11⟩).streak_days = 4 ∧
    (updateStreak 10 ⟨3, some 7, 20, 11⟩).streak_days = 1 ∧
    (updateStreak 10 ⟨3, some 10, 20, 11⟩).streak_days = 3 ∧
    (updateStreak 10 ⟨3, none, 20, 11⟩).streak_days = 1 := by
  refine ⟨(updateStreak_spec 10 ⟨3, some 9, 20, 11⟩).1, ?_, ?_, ?_, ?_⟩
  · exact ((updateStreak_spec 10 ⟨3, some 9, 20, 11⟩).2.2 9 rfl).1 (by decide)
  · exact ((updateStreak_spec 10 ⟨3, some 7, 20, 11⟩).2.2 7 rfl).2.1 (by decide)
  · exact ((updateStreak_spec 10 ⟨3, some 10, 20, 11⟩).2.2 10 rfl).2.2 (by decide)
  · exact (updateStreak_spec 10 ⟨3, none, 20, 11⟩).2.1 rfl

lemma applyAttempt_def (today : ℤ) (b : Bool) (sd : ℕ) (l : Option ℤ) (tq ca : ℕ) :
    applyAttempt today b ⟨sd, l, tq, ca⟩ =
      updateStreak today ⟨sd, l, tq + 1, ca + (if b then 1 else 0)⟩ := rfl

lemma applyAttempt_total (today : ℤ) (b : Bool) (u : UserStats) :
    (applyAttempt today b u).total_questions_answered =
      u.total_questions_answered + 1 := by
  obtain ⟨sd, l, tq, ca⟩ := u
  rw [applyAttempt_def, updateStreak_total]

lemma applyAttempt_last (today : ℤ) (b : Bool) (u : UserStats) :
    (applyAttempt today b u).last_login_at = some today := by
  obtain ⟨sd, l, tq, ca⟩ := u
  rw [applyAttempt_def, updateStreak_last_login]

lemma applyAttempt_streak_of_today (today : ℤ) (b : Bool) (u : UserStats)
    (h : u.last_login_at = some today) :
    (applyAttempt today b u).streak_days = u.streak_days := by
  obtain ⟨sd, l, tq, ca⟩ := u
  rw [applyAttempt_def, updateStreak_streak]
  simp only at h
  rw [h]
  simp

lemma applyAttempt_streak_le (today : ℤ) (b : Bool) (u : UserStats) :
    (applyAttempt today b u).streak_days ≤ u.streak_days + 1 := by
  obtain ⟨sd, l, tq, ca⟩ := u
  rw [applyAttempt_def]
  exact updateStreak_streak_le today ⟨sd, l, tq + 1, ca + (if b then 1 else 0)⟩

/-- C2. Applying two correct-attempt events on the same calendar day increases
`totalAnswered` by 2, while the second application leaves the streak exactly where the
first left it, so the net streak change from the pre-call value is at most +1. -/
theorem applyAttempt_twice_same_day (today : ℤ) (u : UserStats) :
    (applyAttempt today true (applyAttempt today true u)).total_questions_answered =
      u.total_questions_answered + 2 ∧
    (applyAttempt today true (applyAttempt today true u)).streak_days =
      (applyAttempt today true u).streak_days ∧
    (applyAttempt today true (applyAttempt today true u)).streak_days ≤
      u.streak_days + 1 := by
  have hsecond :
      (applyAttempt today true (applyAttempt today true u)).streak_days =
        (applyAttempt today true u).streak_days :=
    applyAttempt_streak_of_today today true _ (applyAttempt_last today true u)
  refine ⟨?_, hsecond, ?_⟩
  · rw [applyAttempt_total, applyAttempt_total]
  · rw [hsecond]
    exact applyAttempt_streak_le today true u

/-- C3. Every core transform is a pure, deterministic function: identical input state
and event give identical output state, and time enters only through the explicit
injected `today` value — for `grade` and `record` it affects nothing but the stamped
`nextReviewDate`. -/
theorem core_deterministic (today t1 t2 : ℤ) (u : UserStats) (b : Bool)
    (card : ReviewCard) (o : Outcome) (m : MasteryRecord) (answers : List Answer) :
    updateStreak today u = updateStreak today u ∧
    applyAttempt today b u = applyAttempt today b u ∧
    grade today card o = grade today card o ∧
    record today m b = record today m b ∧
    score answers = score answers ∧
    (grade t1 card o).intervalDays = (grade t2 card o).intervalDays ∧
    (grade t1 card o).easeFactor = (grade t2 card o).easeFactor ∧
    (grade t1 card o).reviewCount = (grade t2 card o).reviewCount ∧
    (grade t1 card o).status = (grade t2 card o).status ∧
    (record t1 m b).masteryLevel = (record t2 m b).masteryLevel ∧
    (record t1 m b).reviewCount = (record t2 m b).reviewCount := by
  refine ⟨rfl, rfl, rfl, rfl, rfl, ?_, ?_, ?_, ?_, rfl, rfl⟩ <;> (cases o <;> rfl)

lemma record_level_bounds (today : ℤ) (m : MasteryRecord) (b : Bool)
    (h0 : 0 ≤ m.masteryLevel) (h5 : m.masteryLevel ≤ 5) :
    0 ≤ (record today m b).masteryLevel ∧ (record today m b).masteryLevel ≤ 5 := by
  cases b <;> simp only [record] <;> constructor <;> omega

/-- C4. Starting from any mastery record with level in [0,5], every finite sequence of
correct/incorrect `record` calls keeps the mastery level within [0,5]. -/
theorem masteryLevel_in_range (today : ℤ) (m : MasteryRecord) (bs : List Bool)
    (h0 : 0 ≤ m.masteryLevel) (h5 : m.masteryLevel ≤ 5) :
    0 ≤ (recordAll today m bs).masteryLevel ∧
      (recordAll today m bs).masteryLevel ≤ 5 := by
  induction bs generalizing m with
  | nil => exact ⟨h0, h5⟩
  | cons b bs ih =>
      have hstep := record_level_bounds today m b h0 h5
      exact ih (record today m b) hstep.1 hstep.2

/-- Witness for C4 at a concrete record and attempt sequence. -/
theorem masteryLevel_in_range_witness :
    0 ≤ (recordAll 0 ⟨3, 0, none⟩
        [true, true, true, false, false, false]).masteryLevel ∧
    (recordAll 0 ⟨3, 0, none⟩
        [true, true, true, false, false, false]).masteryLevel ≤ 5 :=
  masteryLevel_in_range 0 ⟨3, 0, none⟩ [true, true, true, false, false, false]
    (by decide) (by decide)

/-- C5. Grading the card `{intervalDays := 6, easeFactor := 2.5, reviewCount := 3,
status := Reviewing}` with `Good` yields interval 15, ease unchanged at 2.5, review
count 4, and a next review date of today + 15. -/
theorem grade_good_example (today d0 : ℤ) (r0 : Option Outcome) :
    grade today ⟨CardStatus.Reviewing, 6, 5/2, 3, d0, r0⟩ Outcome.Good =
      ⟨CardStatus.Reviewing, 15, 5/2, 4, today + 15, some Outcome.Good⟩ := by
  simp only [grade]
  norm_num

/-- C6. For every starting ease factor ≥ 1.3 and every outcome, the resulting ease
factor stays ≥ 1.3 — in particular `Again` never drives it below the floor, even from
the floor itself — and `Easy` always adds 0.15 with no ceiling applied. -/
theorem easeFactor_floor (today : ℤ) (card : ReviewCard) (o : Outcome)
    (h : (13 : ℚ)/10 ≤ card.easeFactor) :
    (13 : ℚ)/10 ≤ (grade today card o).easeFactor ∧
    (grade today card Outcome.Easy).easeFactor = card.easeFactor + 3/20 := by
  constructor
  · cases o
    · exact le_max_left _ _
    · exact le_max_left _ _
    · exact h
    · calc (13 : ℚ)/10 ≤ card.easeFactor := h
        _ ≤ card.easeFactor + 3/20 := by linarith
  · rfl

/-- Witness for C6 with a card already at the floor. -/
theorem easeFactor_floor_witness :
    (13 : ℚ)/10 ≤
      (grade 0 ⟨CardStatus.Learning, 1, 13/10, 0, 0, none⟩ Outcome.Again).easeFactor ∧
    (grade 0 ⟨CardStatus.Learning, 1, 13/10, 0, 0, none⟩ Outcome.Easy).easeFactor =
      13/10 + 3/20 :=
  easeFactor_floor 0 ⟨CardStatus.Learning, 1, 13/10, 0, 0, none⟩ Outcome.Again
    (le_refl _)

/-- C7. `record` sets the mastery level to `min 5 (level + 1)` on a correct answer and
`max 0 (level - 2)` on an incorrect one, increments the review count either way, and
stamps the next review date from the new level via the fixed days table
`{0:1, 1:2, 2:4, 3:7, 4:14, 5:30}`. -/
theorem record_spec (today : ℤ) (m : MasteryRecord) :
    (record today m true).masteryLevel = min 5 (m.masteryLevel + 1) ∧
    (record today m false).masteryLevel = max 0 (m.masteryLevel - 2) ∧
    (record today m true).reviewCount = m.reviewCount + 1 ∧
    (record today m false).reviewCount = m.reviewCount + 1 ∧
    (record today m true).nextReviewDate =
      some (today + masteryDueDays (min 5 (m.masteryLevel + 1))) ∧
    (record today m false).nextReviewDate =
      some (today + masteryDueDays (max 0 (m.masteryLevel - 2))) ∧
    masteryDueDays 0 = 1 ∧ masteryDueDays 1 = 2 ∧ masteryDueDays 2 = 4 ∧
    masteryDueDays 3 = 7 ∧ masteryDueDays 4 = 14 ∧ masteryDueDays 5 = 30 :=
  ⟨rfl, rfl, rfl, rfl, rfl, rfl, rfl, rfl, rfl, rfl, rfl, rfl⟩

/-- C8. Scoring a session with no answers yields empty weak and strong sequences;
`score` is a total function, so no error is signalled. -/
theorem score_empty :
    (score ([] : List Answer)).weakSections = [] ∧
    (score ([] : List Answer)).strongSections = [] :=
  ⟨rfl, rfl⟩

lemma mem_weakSections (answers : List Answer) (s : ℕ) :
    s ∈ (score answers).weakSections ↔
      s ∈ sectionsOf answers ∧ accuracy answers s < 3/5 := by
  simp [score, weakIds, List.mem_filter]

lemma mem_strongSections (answers : List Answer) (s : ℕ) :
    s ∈ (score answers).strongSections ↔
      s ∈ sectionsOf answers ∧ 17/20 ≤ accuracy answers s := by
  simp [score, strongIds, List.mem_filter]

lemma mem_neutralIds (answers : List Answer) (s : ℕ) :
    s ∈ neutralIds answers ↔
      s ∈ sectionsOf answers ∧
        (3/5 ≤ accuracy answers s ∧ accuracy answers s < 17/20) := by
  simp [neutralIds, List.mem_filter]

/-- C9. Every section present in the input is classified into exactly one of weak
(accuracy < 0.6), strong (accuracy ≥ 0.85), or neutral; the weak sections are sorted
by accuracy ascending and the strong sections by accuracy descending, ties broken by
section identifier ascending, so the output ordering is deterministic. -/
theorem score_classification (answers : List Answer) (s : ℕ) :
    (s ∈ sectionsOf answers ↔
      s ∈ (score answers).weakSections ∨ s ∈ (score answers).strongSections ∨
        s ∈ neutralIds answers) ∧
    (s ∈ (score answers).weakSections ↔
      s ∈ sectionsOf answers ∧ accuracy answers s < 3/5) ∧
    (s ∈ (score answers).strongSections ↔
      s ∈ sectionsOf answers ∧ 17/20 ≤ accuracy answers s) ∧
    ¬(s ∈ (score answers).weakSections ∧ s ∈ (score answers).strongSections) ∧
    ¬(s ∈ (score answers).weakSections ∧ s ∈ neutralIds answers) ∧
    ¬(s ∈ (score answers).strongSections ∧ s ∈ neutralIds answers) ∧
    List.Sorted (weakOrder answers) (score answers).weakSections ∧
    List.Sorted (strongOrder answers) (score answers).strongSections := by
  refine ⟨?_, mem_weakSections answers s, mem_strongSections answers s,
    ?_, ?_, ?_, ?_, ?_⟩
  · rw [mem_weakSections, mem_strongSections, mem_neutralIds]
    constructor
    · intro hs
      rcases lt_or_le (accuracy answers s) (3/5) with h1 | h1
      · exact Or.inl ⟨hs, h1⟩
      · rcases lt_or_le (accuracy answers s) (17/20) with h2 | h2
        · exact Or.inr (Or.inr ⟨hs, h1, h2⟩)
        · exact Or.inr (Or.inl ⟨hs, h2⟩)
    · rintro (⟨hs, -⟩ | ⟨hs, -⟩ | ⟨hs, -⟩) <;> exact hs
  · rw [mem_weakSections, mem_strongSections]
    rintro ⟨⟨-, h1⟩, -, h2⟩
    linarith
  · rw [mem_weakSections, mem_neutralIds]
    rintro ⟨⟨-, h1⟩, -, h2, -⟩
    linarith
  · rw [mem_strongSections, mem_neutralIds]
    rintro ⟨⟨-, h1⟩, -, -, h2⟩
    linarith
  · exact List.sorted_insertionSort (weakOrder answers) (weakIds answers)
  · exact List.sorted_insertionSort (strongOrder answers) (strongIds answers)

/-- C10. `User.prototype.calculateAccuracy`: returns 0 when nothing was answered (the
division is guarded), otherwise `round (100 * correct / total)`, which lies in
[0, 100] whenever `correct ≤ total`. -/
theorem calculateAccuracy_spec (u : UserStats) :
    (u.total_questions_answered = 0 → calculateAccuracy u = 0) ∧
    (u.total_questions_answered ≠ 0 →
      calculateAccuracy u =
        round ((100 * (u.correct_answers_count : ℚ)) /
          (u.total_questions_answered : ℚ))) ∧
    (u.correct_answers_count ≤ u.total_questions_answered →
      0 ≤ calculateAccuracy u ∧ calculateAccuracy u ≤ 100) := by
  refine ⟨fun h => ?_, fun h => ?_, fun h => ?_⟩
  · simp only [calculateAccuracy, if_pos h]
  · simp only [calculateAccuracy, if_neg h]
    congr 1
    ring
  · rcases Nat.eq_zero_or_pos u.total_questions_answered with h0 | h0
    · simp only [calculateAccuracy, if_pos h0]
      norm_num
    · have htq : (0 : ℚ) < (u.total_questions_answered : ℚ) := by exact_mod_cast h0
      have hq0 : (0 : ℚ) ≤
          (u.correct_answers_count : ℚ) / (u.total_questions_answered : ℚ) * 100 := by
        positivity
      have hq1 :
          (u.correct_answers_count : ℚ) / (u.total_questions_answered : ℚ) ≤ 1 := by
        rw [div_le_one htq]
        exact_mod_cast h
      have hq100 :
          (u.correct_answers_count : ℚ) / (u.total_questions_answered : ℚ) * 100 ≤
            100 := by nlinarith
      simp only [calculateAccuracy, if_neg (Nat.pos_iff_ne_zero.mp h0)]
      constructor
      · rw [round_eq]
        exact Int.le_floor.mpr (by push_cast; linarith)
      · rw [round_eq]
        have hfl := Int.floor_lt.mpr
          (show (u.correct_answers_count : ℚ) / (u.total_questions_answered : ℚ) *
              100 + 1/2 < ((101 : ℤ) : ℚ) by push_cast; linarith)
        omega

/-- Witness for C10: the zero guard and the bounds at a concrete user record. -/
theorem calculateAccuracy_spec_witness :
    calculateAccuracy ⟨0, none, 0, 0⟩ = 0 ∧
    calculateAccuracy ⟨0, none, 10, 7⟩ =
      round ((100 * ((7 : ℕ) : ℚ)) / ((10 : ℕ) : ℚ)) ∧
    (0 ≤ calculateAccuracy ⟨0, none, 10, 7⟩ ∧
      calculateAccuracy ⟨0, none, 10, 7⟩ ≤ 100) :=
  ⟨(calculateAccuracy_spec ⟨0, none, 0, 0⟩).1 rfl,
    (calculateAccuracy_spec ⟨0, none, 10, 7⟩).2.1 (by decide),
    (calculateAccuracy_spec ⟨0, none, 10, 7⟩).2.2 (by decide)⟩

end ToeicCore
